import Mathlib

/-!
Shallow embedding of the oerbservatory vocabulary-normalization layer:
`sources/tess.py` (resource-type and license mapping with unknown-value
counters and deduplicated diagnostics), `sources/dalia.py` (size parsing and
the organization relation-marker regex), and `export/tess.py` (record export
and record skipping).  Python strings are Lean `String`s, Python `None` for an
optional string is `Option.none`, raised exceptions are `Except.error`, and
the module-level `Counter`/log state is threaded explicitly.
-/

/-- Python exception kinds raised by the embedded code. -/
inductive PyErr where
  | attributeError
  | valueError
  | indexError
deriving DecidableEq

/-- ASCII whitespace recognized by Python `str.strip` and the regex class. -/
def pyIsSpaceChar (c : Char) : Bool :=
  c = ' ' || c = '\t' || c = '\n' || c = '\r' || c = '\x0b' || c = '\x0c'

/-- Python `str.lower` on a character (ASCII fragment). -/
def pyLowerChar (c : Char) : Char :=
  if 'A' ≤ c ∧ c ≤ 'Z' then Char.ofNat (c.toNat + 32) else c

/-- Python `str.lower` (ASCII fragment). -/
def pyLower (s : String) : String := ⟨s.data.map pyLowerChar⟩

/-- Python `str.strip()` with no argument: drop whitespace from both ends. -/
def pyStrip (s : String) : String :=
  ⟨((s.data.dropWhile pyIsSpaceChar).reverse.dropWhile pyIsSpaceChar).reverse⟩

/-- `x.lower().strip()`, the key normalization used by the tess.py mappers. -/
def normKey (s : String) : String := pyStrip (pyLower s)

/-- Python truthiness of an optional string: `None` and `""` are falsy. -/
def pyTruthyOptStr : Option String → Bool
  | none => false
  | some s => s ≠ ""

/-- A `collections.Counter[str]` as an association list (insertion order kept,
matching a CPython dict). -/
abbrev CounterM : Type := List (String × Nat)

/-- `counter[k]`: zero for a missing key (a plain read does not insert). -/
def cget : CounterM → String → Nat
  | [], _ => 0
  | (k', n) :: rest, k => if k' = k then n else cget rest k

/-- `counter[k] += 1`. -/
def cincr : CounterM → String → CounterM
  | [], k => [(k, 1)]
  | (k', n) :: rest, k =>
      if k' = k then (k', n + 1) :: rest else (k', n) :: cincr rest k

/-- Python `k in counter`: key presence in the underlying dict. -/
def cmem : CounterM → String → Bool
  | [], _ => false
  | (k', _) :: rest, k => k' = k || cmem rest k

/-- An `rdflib` URIRef built from one of the namespaces imported by tess.py.
The namespaces are external constants; all that matters here is that distinct
names in distinct namespaces denote distinct URIRefs. -/
inductive URIRefM where
  | sdo (name : String)
  | modalia (name : String)
  | hcrt (name : String)
  | bibo (name : String)
  | spdxLicense (name : String)
deriving DecidableEq

/-- The local name of a URIRef (e.g. `SPDX_LICENSE["MIT"]` has label `MIT`). -/
def uriLabel : URIRefM → String
  | .sdo n => n
  | .modalia n => n
  | .hcrt n => n
  | .bibo n => n
  | .spdxLicense n => n

/-- `RESOURCE_TYPE_MAP` from tess.py lines 31-110, transcribed entry by entry.
A `none` value is an explicit Python `None` ("known, intentionally unmapped"). -/
def RESOURCE_TYPE_MAP : List (String × Option URIRefM) := [
  ("video", some (.sdo "VideoObject")),
  ("series of videos", some (.sdo "VideoObject")),
  ("youtube video", some (.sdo "VideoObject")),
  ("computer software", some (.sdo "SoftwareSourceCode")),
  ("coding", some (.sdo "SoftwareSourceCode")),
  ("scripts", some (.sdo "SoftwareSourceCode")),
  ("programming", some (.sdo "SoftwareSourceCode")),
  ("poster", some (.sdo "Poster")),
  ("workshop", some (.modalia "Workshop")),
  ("podcast", some (.sdo "PodcastEpisode")),
  ("slidedeck", some (.hcrt "slide")),
  ("slideshow", some (.hcrt "slide")),
  ("slides", some (.hcrt "slide")),
  ("slide deck / presentation", some (.hcrt "slide")),
  ("slides / presentation", some (.hcrt "slide")),
  ("slideck/ presentation", some (.hcrt "slide")),
  ("presentation", some (.hcrt "slide")),
  ("jupyter notebooks", some (.modalia "CodeNotebook")),
  ("jupyter notebook", some (.modalia "CodeNotebook")),
  ("blog post", none),
  ("training materials", none),
  ("examples", none),
  ("documentation", none),
  ("bioinformatics", none),
  ("hands-on tutorial", none),
  ("learning pathway", none),
  ("tutorials", none),
  ("handbook", none),
  ("case studies", none),
  ("implementation guidelines", none),
  ("additional reading", none),
  ("didactic activities", none),
  ("mock data", none),
  ("how-to guide", none),
  ("online course", none),
  ("online material", none),
  ("education", none),
  ("open educational resource", none),
  ("tool", none),
  ("toolkit", none),
  ("e-learning + workshop", none),
  ("pdf", none),
  ("recording", none),
  ("r shiny application", none),
  ("free online course", none),
  ("carpentries style curriculum", none),
  ("training materials with mock data", none),
  ("online modules", none),
  ("hackathon", none),
  ("vignette", none),
  ("api reference", none),
  ("educational materials", none),
  ("exercise", none),
  ("handout", none),
  ("workflow", none),
  ("installation instructions", none),
  ("manual", none),
  ("talk", none),
  ("knowledgebase", none),
  ("book", some (.bibo "book")),
  ("notes", none),
  ("computational biology", none),
  ("computer science", none),
  ("data science", none),
  ("transcriptomics", none),
  ("machine learning", none),
  ("life sciences literature database", none),
  ("life science literature database", none),
  ("viralzone", none)]

/-- `LICENSES` from tess.py lines 117-144: keys are built with `.lower()`
exactly as in the source. -/
def LICENSES : List (String × URIRefM) := [
  (pyLower "CC-BY-1.0", .spdxLicense "CC-BY-1.0"),
  (pyLower "CC-BY-2.0", .spdxLicense "CC-BY-2.0"),
  (pyLower "CC-BY-3.0", .spdxLicense "CC-BY-3.0"),
  (pyLower "CC-BY-4.0", .spdxLicense "CC-BY-4.0"),
  (pyLower "CC-BY-SA-4.0", .spdxLicense "CC-BY-SA-4.0"),
  (pyLower "CC-BY-ND-4.0", .spdxLicense "CC-BY-ND-4.0"),
  (pyLower "CC-BY-ND-2.0", .spdxLicense "CC-BY-ND-2.0"),
  (pyLower "CC-BY-NC-4.0", .spdxLicense "CC-BY-NC-4.0"),
  (pyLower "CC-BY-NC-2.0", .spdxLicense "CC-BY-NC-2.0"),
  (pyLower "CC-BY-NC-SA-3.0", .spdxLicense "CC-BY-NC-SA-3.0"),
  (pyLower "CC-BY-NC-SA-4.0", .spdxLicense "CC-BY-NC-SA-4.0"),
  (pyLower "CC-BY-NC-ND-3.0", .spdxLicense "CC-BY-NC-ND-3.0"),
  (pyLower "CC-BY-NC-ND-4.0", .spdxLicense "CC-BY-NC-ND-4.0"),
  (pyLower "CC0-1.0", .spdxLicense "CC0-1.0"),
  (pyLower "MIT", .spdxLicense "MIT"),
  (pyLower "gpl-2.0", .spdxLicense "GPL-2.0"),
  (pyLower "gpl-3.0-only", .spdxLicense "GPL-3.0-only"),
  (pyLower "gpl-3.0", .spdxLicense "GPL-3.0-or-later"),
  (pyLower "agpl-3.0-only", .spdxLicense "AGPL-3.0-only"),
  (pyLower "unlicense", .spdxLicense "Unlicense"),
  (pyLower "Apache-2.0", .spdxLicense "Apache-2.0"),
  (pyLower "BSD-3-Clause", .spdxLicense "BSD-3-Clause"),
  (pyLower "Artistic-2.0", .spdxLicense "Artistic-2.0"),
  (pyLower "AFL-3.0", .spdxLicense "AFL-3.0"),
  (pyLower "ODC-By-1.0", .spdxLicense "ODC-By-1.0"),
  (pyLower "WTFPL", .spdxLicense "WTFPL")]

/-- `click.style(s, fg="red")`: wrap in ANSI red escape codes. -/
def styleRed (s : String) : String := "\x1b[31m" ++ s ++ "\x1b[0m"

/-- The diagnostic line written by `_get_resource_types` for an unknown label:
`click.style(f'"{resource_type}": None,', fg="red")`. -/
def rtDiag (t : String) : String := styleRed ("\x22" ++ t ++ "\x22: None,")

/-- State threaded through `_get_resource_types`: the output list `rv`, the
module-level `unknown_resource_type` counter, and the `tqdm.write` log. -/
structure RTState where
  rv : List URIRefM
  counter : CounterM
  log : List String
deriving DecidableEq

/-- One iteration of the loop in `_get_resource_types` (tess.py lines
151-159).  Python `RESOURCE_TYPE_MAP.get(resource_type)` returns `None` both
for an absent key and for a key explicitly mapped to `None`, which is the
`(List.lookup _ _).getD none` collapse; `if nn:` is truthy exactly when the
collapsed lookup produced an actual URIRef (rdflib URIRefs are non-empty
strings, hence truthy). -/
def rtUnknown (st : RTState) (resource_type : String) : RTState :=
  let st1 := if cget st.counter resource_type = 0
    then { st with log := st.log ++ [rtDiag resource_type] } else st
  { st1 with counter := cincr st1.counter resource_type }

/-- The dispatch of one loop iteration on the collapsed `dict.get` result:
the `else` block (tess.py lines 156-159) is `rtUnknown` above, which writes
the diagnostic when the counter reads zero and then increments the counter. -/
def rtStep (st : RTState) (raw0 : String) : RTState :=
  let resource_type := normKey raw0
  match (List.lookup resource_type RESOURCE_TYPE_MAP).getD none with
  | some nn => { st with rv := st.rv ++ [nn] }
  | none => rtUnknown st resource_type

/-- `_get_resource_types` over the `attributes.get("resource-type", [])` list,
threading the module-level counter and log. -/
def get_resource_types (inputs : List String) (st : RTState) : RTState :=
  inputs.foldl rtStep st

/-- Fresh state: empty `rv`, empty `unknown_resource_type`, empty log. -/
def rtInit : RTState := ⟨[], [], []⟩

/-- The diagnostic line written by `_get_license` for an unknown license:
`f"Missing license for {license_text}"`. -/
def licDiag (t : String) : String := "Missing license for " ++ t

/-- State threaded through `_get_license`: the module-level `license_counter`
and the `tqdm.write` log. -/
structure LicState where
  counter : CounterM
  log : List String
deriving DecidableEq

/-- The three possible returns of `_get_license`: `None`, a `URIRef` from the
table, or the raw lowercased string passed through as a placeholder. -/
inductive LicRet where
  | nothing
  | ident (u : URIRefM)
  | raw (s : String)
deriving DecidableEq

/-- The unknown-license tail of `_get_license` (tess.py lines 275-278):
write the diagnostic when the key is not yet in the counter, then increment
the counter. -/
def licUnknown (st : LicState) (license_text : String) : LicState :=
  let st1 := if cmem st.counter license_text
    then st else { st with log := st.log ++ [licDiag license_text] }
  { st1 with counter := cincr st1.counter license_text }

/-- Body of `_get_license` (tess.py lines 267-281) once
`attributes["licence"].lower().strip()` has produced the string
`license_text`.  The guard on line 269 reads
`license_text is None or license_text == "notspecified"`; at that point
`license_text` is a `str`, so the `is None` disjunct is identically false and
only the `== "notspecified"` comparison remains. -/
def get_license_str (raw0 : String) (st : LicState) : LicRet × LicState :=
  let license_text := normKey raw0
  if license_text = "notspecified" then (.nothing, st)
  else
    match List.lookup license_text LICENSES with
    | some u => (.ident u, st)
    | none => (.raw license_text, licUnknown st license_text)

/-- `_get_license` on the raw `attributes["licence"]` value, which may be
Python `None`: `.lower()` on `None` raises `AttributeError` before any
check in the body runs. -/
def get_license (licence : Option String) (st : LicState) :
    Except PyErr (LicRet × LicState) :=
  match licence with
  | none => .error .attributeError
  | some s => .ok (get_license_str s st)

/-- Repeated calls of `_get_license` over a batch of records, threading the
module-level counter and log (one call per harvested material). -/
def process_licenses (inputs : List String) (st : LicState) : LicState :=
  inputs.foldl (fun st s => (get_license_str s st).2) st

/-- Fresh state: empty `license_counter`, empty log. -/
def licInit : LicState := ⟨[], []⟩

/-- Occurrence count of normalized key `v` in a list of raw label strings. -/
def occ (v : String) (inputs : List String) : Nat :=
  inputs.countP (fun x => normKey x = v)


/-- Python `s.endswith(suffix)`. -/
def pyEndswith (s suffix : String) : Bool := suffix.data.isSuffixOf s.data

/-- Python `s.removesuffix(suffix)`: drop the suffix when present, otherwise
return the string unchanged. -/
def pyRemovesuffix (s suffix : String) : String :=
  if pyEndswith s suffix then ⟨s.data.take (s.data.length - suffix.data.length)⟩
  else s

/-- Value of a digit run. -/
def digitsVal (cs : List Char) : Nat :=
  cs.foldl (fun n c => 10 * n + (c.toNat - 48)) 0

/-- Number of binary digits of a natural number (0 for 0), by fuel-bounded
halving; the fuel 1100 covers every magnitude that can arise here (values
stay far below `2 ^ 1100`), and the recursion stops as soon as the argument
reaches 0, so evaluation takes one step per bit. -/
def bitLenAux : Nat → Nat → Nat
  | 0, _ => 0
  | fuel + 1, n => if n = 0 then 0 else bitLenAux fuel (n / 2) + 1

def bitLen (n : Nat) : Nat := bitLenAux 1100 n

/-- Round the exact ratio `a / b` (with `b > 0`) to the nearest integer,
ties to even — the IEEE-754 default rounding used by CPython floats. -/
def rhe (a b : Nat) : Nat :=
  let q := a / b
  let r := a % b
  if 2 * r < b then q
  else if b < 2 * r then q + 1
  else if q % 2 = 0 then q else q + 1

/-- A nonnegative IEEE-754 binary64 value `m * 2 ^ e`.  Only the value
matters here, so `m` is not forced into canonical `[2^52, 2^53)` form. -/
structure Fl where
  m : Nat
  e : Int
deriving DecidableEq

/-- `⌊log2 (n / 10 ^ s)⌋` for `n ≥ 1`: from the bit lengths of numerator and
denominator the floor log is one of two adjacent integers; a single exact
comparison picks the right one. -/
def floorLog2 (n s : Nat) : Int :=
  let z0 : Int := (bitLen n : Int) - (bitLen (10 ^ s) : Int)
  let le2pow : Bool :=
    if 0 ≤ z0 then 2 ^ z0.toNat * 10 ^ s ≤ n else 10 ^ s ≤ n * 2 ^ (-z0).toNat
  if le2pow then z0 else z0 - 1

/-- Correctly rounded binary64 value of the decimal `n / 10 ^ s`
(round-to-nearest, ties to even, 53-bit significand) — the value CPython
`float()` produces for such a literal.  Subnormal and overflow ranges cannot
arise from a `"<decimal> MB"` size field and are outside the model. -/
def decToFloat (n s : Nat) : Fl :=
  if n = 0 then ⟨0, 0⟩
  else
    let e : Int := floorLog2 n s - 52
    if 0 ≤ e then ⟨rhe n (10 ^ s * 2 ^ e.toNat), e⟩
    else ⟨rhe (n * 2 ^ (-e).toNat) (10 ^ s), e⟩

/-- The binary64 product of a float and a natural-number literal: the exact
product `(m * k) * 2 ^ e` rounded back to a 53-bit significand, ties to even
— the single IEEE-754 rounding CPython performs for `float * 1_000_000`. -/
def flMulNat (d : Fl) (k : Nat) : Fl :=
  let p := d.m * k
  if p = 0 then ⟨0, 0⟩
  else
    let shift : Int := (bitLen p : Int) - 53
    if shift ≤ 0 then ⟨p, d.e⟩
    else ⟨rhe p (2 ^ shift.toNat), d.e + shift⟩

/-- Python `int(x)` on a nonnegative float: truncation toward zero. -/
def flTruncToInt (d : Fl) : Nat :=
  if 0 ≤ d.e then d.m * 2 ^ d.e.toNat else d.m / 2 ^ (-d.e).toNat

/-- The exact rational value of a binary64 number. -/
def flVal (d : Fl) : ℚ :=
  if 0 ≤ d.e then (d.m : ℚ) * 2 ^ d.e.toNat else (d.m : ℚ) / 2 ^ (-d.e).toNat

/-- Python `float(s)` restricted to plain decimal literals (`digits` or
`digits.digits`), with faithful binary64 semantics: the literal's exact
value is rounded to the nearest double, ties to even, as CPython does.
Other accepted `float` syntax (exponents, signs, infinities) never appears
in these size fields and is out of the model: the parser returns `none`
(a `ValueError`) for it. -/
def pyFloat (s : String) : Option Fl :=
  match s.data.splitOn '.' with
  | [ip] =>
      if !ip.isEmpty && ip.all Char.isDigit
      then some (decToFloat (digitsVal ip) 0) else none
  | [ip, fp] =>
      if (!ip.isEmpty && ip.all Char.isDigit) && (!fp.isEmpty && fp.all Char.isDigit)
      then some (decToFloat (digitsVal ip * 10 ^ fp.length + digitsVal fp) fp.length)
      else none
  | _ => none

/-- `_process_size` (dalia.py lines 81-86): `None` passes through, a string
not ending in `" MB"` raises `ValueError`, otherwise the numeric prefix is
parsed as a binary64 float, multiplied by 1,000,000 in double arithmetic
(one more rounding) and truncated to an int (`pydantic.ByteSize` of an int
is that int).  An unparsable numeric prefix also raises `ValueError` (from
`float`). -/
def process_size (x : Option String) : Except PyErr (Option Nat) :=
  match x with
  | none => .ok none
  | some s =>
      if !pyEndswith s " MB" then .error .valueError
      else
        match pyFloat (pyRemovesuffix s " MB") with
        | none => .error .valueError
        | some d => .ok (some (flTruncToInt (flMulNat d 1000000)))

/-- The alternation `(S|R|SR|RS)` of the relation-marker regex, read off the
reversed character list that follows the final `)`; returns the captured
marker and the reversed remainder that must still match `^(.*)\s\(`.
At most one alternative can apply: a one-character marker needs `(`
immediately before it while a two-character marker needs a marker letter
there, so the cases are mutually exclusive. -/
def relOf : List Char → Option (String × List Char)
  | 'S' :: '(' :: rest => some ("S", rest)
  | 'R' :: '(' :: rest => some ("R", rest)
  | 'R' :: 'S' :: '(' :: rest => some ("SR", rest)
  | 'S' :: 'R' :: '(' :: rest => some ("RS", rest)
  | _ => none

/-- The anchored regex `RE` from dalia.py line 40:
`^(?P<name>.*)\s\((?P<relation>S|R|SR|RS)\)$` applied with `re.match`.
Because the pattern is anchored at both ends the decomposition is forced
from the right; `.*` matches any character except a newline, and `\s`
matches one whitespace character.  Returns the `name` and `relation`
captures on a match. -/
def re_match (s : String) : Option (String × String) :=
  match s.data.reverse with
  | ')' :: rest =>
      match relOf rest with
      | some (rel, w :: name_rev) =>
          if pyIsSpaceChar w && name_rev.all (fun c => c != '\n')
          then some (⟨name_rev.reverse⟩, rel) else none
      | _ => none
  | _ => none

/-- Modelled from the spec: §4.3 says the trailing relation marker "must be
stripped from the display name and retained as separate structured metadata";
the consumer of `RE` is not under src/, so the stripping step is modelled as
returning the `name` capture plus the marker on a match, and the unchanged
string with no marker otherwise. -/
def strip_relation (s : String) : String × Option String :=
  match re_match s with
  | some (n, r) => (n, some r)
  | none => (s, none)

/-- The language tag constant `EN` of `oerbservatory.model`. -/
def EN : String := "en"

/-- The subset of `tess_downloader.LearningMaterial` fields that the two
constructors under src/ fill with record-dependent data (every other keyword
argument is a constant `None`, except `difficulty_level`, kept here; the
`scientific_topics` list is built by the external `get_discipline_label`
collaborator and is outside the model). -/
structure LearningMaterial where
  slug : Option String
  title : Option String
  url : Option String
  description : Option String
  keywords : Option (List String)
  difficulty_level : Option String
deriving DecidableEq

/-- Modelled from the spec: §3's `EducationalResource` record shape (the
`oerbservatory.model` module is not under src/), restricted to the fields
`export_tess` reads.  Language-tagged fields are mappings from language code
to text, here association lists; `external_uri` is an optional URI string. -/
structure EducationalResource where
  title : List (String × String)
  description : List (String × String)
  keywords : List (List (String × String))
  external_uri : Option String
deriving DecidableEq

/-- `export_tess` (export/tess.py lines 23-64).  `oer.title.get(EN) if
oer.title else None` reads the English entry when the dict is truthy
(non-empty); `if not title: return None` skips records whose title is `None`
or empty; the remaining keyword arguments are constants in the source. -/
def export_tess (oer : EducationalResource) : Option LearningMaterial :=
  let title : Option String :=
    if oer.title.isEmpty then none else List.lookup EN oer.title
  let description : Option String :=
    if oer.description.isEmpty then none else List.lookup EN oer.title
  if !pyTruthyOptStr title then none
  else some
    { slug := none
      title := title
      url := oer.external_uri
      description := description
      keywords :=
        if oer.keywords.isEmpty then none
        else some (oer.keywords.filterMap (fun k => List.lookup EN k))
      difficulty_level := some "notspecified" }

/-- The fields of `dalia_dif.dif13.EducationalResourceDIF13` that
`_from_dalia_dif13` reads.  `description` is optional (the claim's "missing
or empty" both make the Python value falsy). -/
structure DIF13 where
  uuid : String
  title : String
  description : Option String
  links : List String
  keywords : List String
deriving DecidableEq

/-- `_from_dalia_dif13` (export/tess.py lines 67-85): a record with a falsy
description is skipped (`return None`); otherwise the material is built, with
`oer.links[0]` raising `IndexError` on an empty list.  `scientific_topics`
(external labeling collaborator) is outside the model; `difficulty_level` is
not passed, so it keeps its `None` default. -/
def from_dalia_dif13 (oer : DIF13) : Except PyErr (Option LearningMaterial) :=
  if !pyTruthyOptStr oer.description then .ok none
  else
    match oer.links.head? with
    | none => .error .indexError
    | some url0 => .ok (some
        { slug := some oer.uuid
          title := some oer.title
          url := some url0
          description := oer.description
          keywords := some oer.keywords
          difficulty_level := none })

/-- The batch pattern shared by `parse` (dalia.py lines 47-55) and the upload
loop in `main` (export/tess.py lines 106-109): transform each row in order and
keep the non-`None` results; an exception aborts the batch. -/
def process_rows : List DIF13 → Except PyErr (List LearningMaterial)
  | [] => .ok []
  | r :: rs =>
      match from_dalia_dif13 r with
      | .error e => .error e
      | .ok x =>
          match process_rows rs with
          | .error e => .error e
          | .ok rest =>
              match x with
              | none => .ok rest
              | some lm => .ok (lm :: rest)


/-! ### Helper lemmas -/

theorem string_data_append (a b : String) : (a ++ b).data = a.data ++ b.data := rfl

theorem string_eq_of_data (a b : String) (h : a.data = b.data) : a = b :=
  congrArg String.mk h

theorem rtDiag_injective (a b : String) (h : rtDiag a = rtDiag b) : a = b := by
  have hd : a.data = b.data := by
    simpa [rtDiag, styleRed, string_data_append] using congrArg String.data h
  exact string_eq_of_data a b hd

theorem licDiag_injective (a b : String) (h : licDiag a = licDiag b) : a = b := by
  have hd : a.data = b.data := by
    simpa [licDiag, string_data_append] using congrArg String.data h
  exact string_eq_of_data a b hd

theorem cget_cincr_self (c : CounterM) (k : String) :
    cget (cincr c k) k = cget c k + 1 := by
  induction c with
  | nil => simp [cget, cincr]
  | cons p rest ih =>
      obtain ⟨k', n⟩ := p
      by_cases hk : k' = k
      · simp [cget, cincr, hk]
      · simp [cget, cincr, hk, ih]

theorem cget_cincr_ne (c : CounterM) (k k' : String) (hk : k' ≠ k) :
    cget (cincr c k') k = cget c k := by
  induction c with
  | nil => simp [cget, cincr, hk]
  | cons p rest ih =>
      obtain ⟨k0, n⟩ := p
      by_cases h0 : k0 = k'
      · subst h0
        simp [cget, cincr, hk]
      · by_cases h1 : k0 = k
        · simp [cget, cincr, h0, h1, Ne.symm hk]
        · simp [cget, cincr, h0, h1, ih]

theorem cmem_cincr_self (c : CounterM) (k : String) :
    cmem (cincr c k) k = true := by
  induction c with
  | nil => simp [cmem, cincr]
  | cons p rest ih =>
      obtain ⟨k0, n⟩ := p
      by_cases h0 : k0 = k
      · simp [cmem, cincr, h0]
      · simp [cmem, cincr, h0, ih]

theorem cmem_cincr_ne (c : CounterM) (k k' : String) (hk : k' ≠ k) :
    cmem (cincr c k') k = cmem c k := by
  induction c with
  | nil => simp [cmem, cincr, hk]
  | cons p rest ih =>
      obtain ⟨k0, n⟩ := p
      by_cases h0 : k0 = k'
      · subst h0
        simp [cmem, cincr, hk]
      · simp [cmem, cincr, h0, ih]

theorem count_append_singleton (l : List String) (d d' : String) :
    (l ++ [d]).count d' = l.count d' + (if d = d' then 1 else 0) := by
  by_cases h : d = d' <;>
    simp [List.count_append, List.count_cons, List.count_nil, beq_iff_eq, h]

theorem rtUnknown_counter (st : RTState) (k : String) :
    (rtUnknown st k).counter = cincr st.counter k := by
  by_cases hc : cget st.counter k = 0 <;> simp [rtUnknown, hc]

theorem rtUnknown_rv (st : RTState) (k : String) :
    (rtUnknown st k).rv = st.rv := by
  by_cases hc : cget st.counter k = 0 <;> simp [rtUnknown, hc]

theorem rtUnknown_log (st : RTState) (k : String) :
    (rtUnknown st k).log =
      if cget st.counter k = 0 then st.log ++ [rtDiag k] else st.log := by
  by_cases hc : cget st.counter k = 0 <;> simp [rtUnknown, hc]

theorem rtStep_eq (st : RTState) (x : String) :
    rtStep st x =
      match (List.lookup (normKey x) RESOURCE_TYPE_MAP).getD none with
      | some nn => { st with rv := st.rv ++ [nn] }
      | none => rtUnknown st (normKey x) := rfl

theorem rtStep_counter_other (st : RTState) (x v : String) (hx : normKey x ≠ v) :
    cget (rtStep st x).counter v = cget st.counter v := by
  rw [rtStep_eq]
  rcases hE : (List.lookup (normKey x) RESOURCE_TYPE_MAP).getD none with _ | nn
  · simp only [hE]
    rw [rtUnknown_counter, cget_cincr_ne _ _ _ hx]
  · simp only [hE]

theorem rtStep_log_other (st : RTState) (x v : String) (hx : normKey x ≠ v) :
    (rtStep st x).log.count (rtDiag v) = st.log.count (rtDiag v) := by
  rw [rtStep_eq]
  rcases hE : (List.lookup (normKey x) RESOURCE_TYPE_MAP).getD none with _ | nn
  · simp only [hE]
    rw [rtUnknown_log]
    split
    · rw [count_append_singleton]
      rw [if_neg (fun hcon => hx (rtDiag_injective _ _ hcon))]
      omega
    · rfl
  · simp only [hE]

theorem rtStep_hit_counter (st : RTState) (x v : String) (hx : normKey x = v)
    (hv : List.lookup v RESOURCE_TYPE_MAP = none) :
    cget (rtStep st x).counter v = cget st.counter v + 1 := by
  rw [rtStep_eq, hx, hv]
  simp only [Option.getD_none]
  rw [rtUnknown_counter, cget_cincr_self]

theorem rtStep_hit_log (st : RTState) (x v : String) (hx : normKey x = v)
    (hv : List.lookup v RESOURCE_TYPE_MAP = none) :
    (rtStep st x).log.count (rtDiag v) =
      st.log.count (rtDiag v) + (if cget st.counter v = 0 then 1 else 0) := by
  rw [rtStep_eq, hx, hv]
  simp only [Option.getD_none]
  rw [rtUnknown_log]
  split
  · rw [count_append_singleton, if_pos rfl]
  · rfl

theorem rt_fold (v : String) (hv : List.lookup v RESOURCE_TYPE_MAP = none) :
    ∀ (inputs : List String) (st : RTState),
      cget (get_resource_types inputs st).counter v = cget st.counter v + occ v inputs ∧
      (get_resource_types inputs st).log.count (rtDiag v) =
        st.log.count (rtDiag v) +
          (if cget st.counter v = 0 ∧ occ v inputs ≠ 0 then 1 else 0)
  | [], st => by simp [get_resource_types, occ]
  | x :: rest, st => by
      obtain ⟨ihc, ihl⟩ := rt_fold v hv rest (rtStep st x)
      have hcons : get_resource_types (x :: rest) st
          = get_resource_types rest (rtStep st x) := rfl
      have hocc : occ v (x :: rest)
          = occ v rest + (if normKey x = v then 1 else 0) := by
        simp [occ, List.countP_cons]
      by_cases hx : normKey x = v
      · have h1 := rtStep_hit_counter st x v hx hv
        have h2 := rtStep_hit_log st x v hx hv
        constructor
        · rw [hcons, ihc, h1, hocc]
          simp [hx]
          omega
        · rw [hcons, ihl, h2, hocc]
          have hne : ¬ cget (rtStep st x).counter v = 0 := by
            rw [h1]; omega
          by_cases hc : cget st.counter v = 0 <;> simp [hx, hc, hne]
      · have h1 := rtStep_counter_other st x v hx
        have h2 := rtStep_log_other st x v hx
        constructor
        · rw [hcons, ihc, h1, hocc]
          simp [hx]
        · rw [hcons, ihl, h2, h1, hocc]
          simp [hx]

theorem licUnknown_counter (st : LicState) (k : String) :
    (licUnknown st k).counter = cincr st.counter k := by
  by_cases hc : cmem st.counter k <;> simp [licUnknown, hc]

theorem licUnknown_log (st : LicState) (k : String) :
    (licUnknown st k).log =
      if cmem st.counter k then st.log else st.log ++ [licDiag k] := by
  by_cases hc : cmem st.counter k <;> simp [licUnknown, hc]

theorem get_license_str_eq (x : String) (st : LicState) :
    get_license_str x st =
      if normKey x = "notspecified" then (.nothing, st)
      else
        match List.lookup (normKey x) LICENSES with
        | some u => (.ident u, st)
        | none => (.raw (normKey x), licUnknown st (normKey x)) := rfl

theorem lic_snd_counter_other (st : LicState) (x v : String) (hx : normKey x ≠ v) :
    cget (get_license_str x st).2.counter v = cget st.counter v := by
  rw [get_license_str_eq]
  split
  · rfl
  · rcases hE : List.lookup (normKey x) LICENSES with _ | u
    · simp only [hE]
      show cget (licUnknown st (normKey x)).counter v = _
      rw [licUnknown_counter, cget_cincr_ne _ _ _ hx]
    · simp only [hE]

theorem lic_snd_cmem_other (st : LicState) (x v : String) (hx : normKey x ≠ v) :
    cmem (get_license_str x st).2.counter v = cmem st.counter v := by
  rw [get_license_str_eq]
  split
  · rfl
  · rcases hE : List.lookup (normKey x) LICENSES with _ | u
    · simp only [hE]
      show cmem (licUnknown st (normKey x)).counter v = _
      rw [licUnknown_counter, cmem_cincr_ne _ _ _ hx]
    · simp only [hE]

theorem lic_snd_log_other (st : LicState) (x v : String) (hx : normKey x ≠ v) :
    (get_license_str x st).2.log.count (licDiag v) = st.log.count (licDiag v) := by
  rw [get_license_str_eq]
  split
  · rfl
  · rcases hE : List.lookup (normKey x) LICENSES with _ | u
    · simp only [hE]
      show (licUnknown st (normKey x)).log.count (licDiag v) = _
      rw [licUnknown_log]
      split
      · rfl
      · rw [count_append_singleton]
        rw [if_neg (fun hcon => hx (licDiag_injective _ _ hcon))]
        omega
    · simp only [hE]

theorem lic_snd_hit_counter (st : LicState) (x v : String) (hx : normKey x = v)
    (hv : List.lookup v LICENSES = none) (hv2 : v ≠ "notspecified") :
    cget (get_license_str x st).2.counter v = cget st.counter v + 1 := by
  rw [get_license_str_eq, hx, if_neg hv2, hv]
  show cget (licUnknown st v).counter v = _
  rw [licUnknown_counter, cget_cincr_self]

theorem lic_snd_hit_cmem (st : LicState) (x v : String) (hx : normKey x = v)
    (hv : List.lookup v LICENSES = none) (hv2 : v ≠ "notspecified") :
    cmem (get_license_str x st).2.counter v = true := by
  rw [get_license_str_eq, hx, if_neg hv2, hv]
  show cmem (licUnknown st v).counter v = true
  rw [licUnknown_counter, cmem_cincr_self]

theorem lic_snd_hit_log (st : LicState) (x v : String) (hx : normKey x = v)
    (hv : List.lookup v LICENSES = none) (hv2 : v ≠ "notspecified") :
    (get_license_str x st).2.log.count (licDiag v) =
      st.log.count (licDiag v) + (if cmem st.counter v then 0 else 1) := by
  rw [get_license_str_eq, hx, if_neg hv2, hv]
  show (licUnknown st v).log.count (licDiag v) = _
  rw [licUnknown_log]
  split
  · omega
  · rw [count_append_singleton, if_pos rfl]

theorem lic_fold (v : String) (hv : List.lookup v LICENSES = none)
    (hv2 : v ≠ "notspecified") :
    ∀ (inputs : List String) (st : LicState),
      cget (process_licenses inputs st).counter v = cget st.counter v + occ v inputs ∧
      (process_licenses inputs st).log.count (licDiag v) =
        st.log.count (licDiag v) +
          (if cmem st.counter v = false ∧ occ v inputs ≠ 0 then 1 else 0)
  | [], st => by simp [process_licenses, occ]
  | x :: rest, st => by
      obtain ⟨ihc, ihl⟩ := lic_fold v hv hv2 rest (get_license_str x st).2
      have hcons : process_licenses (x :: rest) st
          = process_licenses rest (get_license_str x st).2 := rfl
      have hocc : occ v (x :: rest)
          = occ v rest + (if normKey x = v then 1 else 0) := by
        simp [occ, List.countP_cons]
      by_cases hx : normKey x = v
      · have h1 := lic_snd_hit_counter st x v hx hv hv2
        have h2 := lic_snd_hit_log st x v hx hv hv2
        have h3 := lic_snd_hit_cmem st x v hx hv hv2
        constructor
        · rw [hcons, ihc, h1, hocc]
          simp [hx]
          omega
        · rw [hcons, ihl, h2, h3, hocc]
          by_cases hc : cmem st.counter v <;> simp [hx, hc]
      · have h1 := lic_snd_counter_other st x v hx
        have h2 := lic_snd_log_other st x v hx
        have h3 := lic_snd_cmem_other st x v hx
        constructor
        · rw [hcons, ihc, h1, hocc]
          simp [hx]
        · rw [hcons, ihl, h2, h3, hocc]
          simp [hx]

theorem pyEndswith_append (v sfx : String) : pyEndswith (v ++ sfx) sfx = true := by
  simp [pyEndswith, string_data_append, List.isSuffixOf_iff_suffix]

theorem pyRemovesuffix_append (v sfx : String) :
    pyRemovesuffix (v ++ sfx) sfx = v := by
  rw [pyRemovesuffix, if_pos (pyEndswith_append v sfx)]
  apply string_eq_of_data
  show (v.data ++ sfx.data).take ((v.data ++ sfx.data).length - sfx.data.length)
      = v.data
  rw [List.length_append]
  rw [show v.data.length + sfx.data.length - sfx.data.length = v.data.length
    from by omega]
  exact List.take_left v.data sfx.data

theorem process_size_parses (v : String) (d : Fl) (hd : pyFloat v = some d) :
    process_size (some (v ++ " MB")) = .ok (some (flTruncToInt (flMulNat d 1000000))) := by
  rw [process_size]
  rw [pyEndswith_append v " MB", pyRemovesuffix_append v " MB", hd]
  rfl

theorem process_size_bad_suffix (s : String) (h : pyEndswith s " MB" = false) :
    process_size (some s) = .error .valueError := by
  rw [process_size, h]
  rfl

theorem process_rows_all_ok (rows : List DIF13)
    (h : ∀ r ∈ rows, ∃ lm, from_dalia_dif13 r = .ok (some lm)) :
    ∃ out, process_rows rows = .ok out ∧ out.length = rows.length := by
  induction rows with
  | nil => exact ⟨[], rfl, rfl⟩
  | cons r rs ih =>
      obtain ⟨lm, hlm⟩ := h r (by simp)
      obtain ⟨out, hout, hlen⟩ := ih (fun x hx => h x (by simp [hx]))
      refine ⟨lm :: out, ?_, by simp [hlen]⟩
      simp [process_rows, hlm, hout]

theorem from_dalia_skips_falsy (bad : DIF13)
    (hbad : pyTruthyOptStr bad.description = false) :
    from_dalia_dif13 bad = .ok none := by
  simp [from_dalia_dif13, hbad]

theorem process_rows_skip_one (l1 l2 : List DIF13) (bad : DIF13)
    (hbad : pyTruthyOptStr bad.description = false)
    (hok : ∀ r ∈ l1 ++ l2, ∃ lm, from_dalia_dif13 r = .ok (some lm)) :
    ∃ out, process_rows (l1 ++ bad :: l2) = .ok out ∧
      out.length = (l1 ++ bad :: l2).length - 1 := by
  induction l1 with
  | nil =>
      obtain ⟨out, hout, hlen⟩ :=
        process_rows_all_ok l2 (fun r hr => hok r (by simpa using hr))
      refine ⟨out, ?_, by simp [hlen]⟩
      simp [process_rows, from_dalia_skips_falsy bad hbad, hout]
  | cons r rs ih =>
      obtain ⟨lm, hlm⟩ := hok r (by simp)
      obtain ⟨out, hout, hlen⟩ := ih (fun x hx => hok x (by
        simp only [List.mem_append] at hx ⊢
        tauto))
      refine ⟨lm :: out, ?_, ?_⟩
      · simp [process_rows, hlm, hout]
      · simp only [List.length_append, List.length_cons] at hlen ⊢
        omega

theorem export_tess_ok (oer : EducationalResource) (t : String)
    (htne : oer.title.isEmpty = false)
    (ht : List.lookup EN oer.title = some t) (ht2 : t ≠ "") :
    export_tess oer = some
      { slug := none
        title := some t
        url := oer.external_uri
        description := if oer.description.isEmpty then none else some t
        keywords := if oer.keywords.isEmpty then none
          else some (oer.keywords.filterMap (fun k => List.lookup EN k))
        difficulty_level := some "notspecified" } := by
  unfold export_tess
  simp [htne, ht, pyTruthyOptStr, ht2]

theorem re_match_accepts (name rel : String)
    (hrel : rel = "S" ∨ rel = "R" ∨ rel = "SR" ∨ rel = "RS")
    (hnl : ∀ c ∈ name.data, c ≠ '\n') :
    re_match (name ++ " (" ++ rel ++ ")") = some (name, rel) := by
  have hall : name.data.reverse.all (fun c => c != '\n') = true := by
    rw [List.all_eq_true]
    intro c hc
    rw [List.mem_reverse] at hc
    simpa using hnl c hc
  have hsp : pyIsSpaceChar ' ' = true := by decide
  have hmk2 : (⟨name.data⟩ : String) = name := string_eq_of_data _ _ rfl
  rcases hrel with rfl | rfl | rfl | rfl <;>
    (unfold re_match
     simp [string_data_append, List.reverse_append, relOf, hsp, hall, hmk2,
       show (" (" : String).data = [' ', '('] from rfl,
       show ("S" : String).data = ['S'] from rfl,
       show ("R" : String).data = ['R'] from rfl,
       show ("SR" : String).data = ['S', 'R'] from rfl,
       show ("RS" : String).data = ['R', 'S'] from rfl,
       show (")" : String).data = [')'] from rfl])


/-! ### Claim theorems -/

/-- C1: `"blog post"` is explicitly mapped to `None` in `RESOURCE_TYPE_MAP`,
yet `_get_resource_types` sends it down the unknown-value path: the label is
excluded from the returned list (as the claim says), but the diagnostic line
IS written and the `unknown_resource_type` counter IS incremented, because
`RESOURCE_TYPE_MAP.get(resource_type)` collapses an explicit `None` value
with an absent key and `if nn:` then takes the unknown branch.  This theorem
evaluates the code at the failing input from a fresh state. -/
theorem explicit_null_label_hits_unknown_path :
    List.lookup "blog post" RESOURCE_TYPE_MAP = some none ∧
    get_resource_types ["blog post"] rtInit
      = ⟨[], [("blog post", 1)], [rtDiag "blog post"]⟩ := by
  constructor
  · decide
  · decide

/-- C2 (amended): for every file-size string of the form `"<decimal> MB"`,
`_process_size` returns `int(float(v) * 1_000_000)` computed in IEEE-754
binary64 arithmetic — the decimal is rounded to the nearest double, the
product with 1,000,000 is rounded once more, and the result is truncated
toward zero (not `round`); and for every string not ending in `" MB"` it
raises `ValueError`. -/
theorem process_size_spec (v : String) (d : Fl) (hd : pyFloat v = some d) :
    process_size (some (v ++ " MB"))
      = .ok (some (flTruncToInt (flMulNat d 1000000))) ∧
    ∀ s, pyEndswith s " MB" = false → process_size (some s) = .error .valueError :=
  ⟨process_size_parses v d hd, fun s hs => process_size_bad_suffix s hs⟩

/-- C2 witness: `"8.2"` parses to the double `4616189618054758 * 2 ^ (-49)`
(the CPython value of `float("8.2")`, slightly below 8.2), so `"8.2 MB"`
yields 8,199,999 bytes — the double product lands 0.763 ulp below 8,200,000
and `int` truncates — and a non-`" MB"` suffix raises. -/
theorem process_size_spec_witness :
    pyFloat "8.2" = some (decToFloat 82 1) ∧
    decToFloat 82 1 = ⟨4616189618054758, -49⟩ ∧
    process_size (some "8.2 MB") = .ok (some 8199999) ∧
    process_size (some "10 KB") = .error .valueError := by
  have h := process_size_spec "8.2" (decToFloat 82 1) (by rfl)
  refine ⟨by rfl, by decide, ?_, h.2 "10 KB" (by decide)⟩
  have hval : flTruncToInt (flMulNat (decToFloat 82 1) 1000000) = 8199999 := by
    decide
  have h1 := h.1
  rw [hval] at h1
  show process_size (some ("8.2" ++ " MB")) = _
  exact h1

/-- C2 counterexample: on `"1.2345678 MB"` the code yields 1,234,567 bytes,
but rounding the double product `float("1.2345678") * 1_000_000` — the value
`5302428325694669 * 2 ^ (-32)`, just above 1,234,567.8 — gives 1,234,568, so
the claimed `round(float * 1_000_000)` disagrees with the code here. -/
theorem process_size_rounds_counterexample :
    process_size (some "1.2345678 MB") = .ok (some 1234567) ∧
    flMulNat (decToFloat 12345678 7) 1000000 = ⟨5302428325694669, -32⟩ ∧
    round (flVal ⟨5302428325694669, -32⟩) = 1234568 ∧
    (1234567 : ℕ) ≠ 1234568 := by
  refine ⟨by rfl, by decide, ?_, by decide⟩
  have hv : flVal ⟨5302428325694669, -32⟩ = (5302428325694669 : ℚ) / 2 ^ 32 := by
    rw [flVal, if_neg (by decide)]
    show (5302428325694669 : ℚ) / 2 ^ ((-(-32 : ℤ)).toNat) = _
    rw [show ((-(-32 : ℤ)).toNat) = 32 from by decide]
  rw [hv, round_eq, Int.floor_eq_iff]
  norm_num

/-- C3 (amended): a raw license string whose lowercased, trimmed form is the
literal `"notspecified"` makes `_get_license` return nothing with no state
change; the empty string, however, is NOT special-cased by the code (the
guard tests only `is None` — dead on a `str` — and `== "notspecified"`), so
it falls through to the raw-passthrough path. -/
theorem license_notspecified_returns_none (s : String) (st : LicState)
    (h : normKey s = "notspecified") : get_license_str s st = (.nothing, st) := by
  rw [get_license_str_eq, if_pos h]

/-- C3 witness: `" NotSpecified "` lowercases and trims to `"notspecified"`
and is dropped without touching the counter or the log. -/
theorem license_notspecified_returns_none_witness :
    normKey " NotSpecified " = "notspecified" ∧
    get_license_str " NotSpecified " licInit = (.nothing, licInit) :=
  ⟨by decide, license_notspecified_returns_none " NotSpecified " licInit (by decide)⟩

/-- C3 counterexample: the empty license string is returned as a raw
passthrough `""` — not nothing — and it is recorded in the counter and
reported in the log, contradicting the claim's "returns nothing, no
recording" for empty input. -/
theorem license_empty_not_dropped :
    get_license_str "" licInit = (.raw "", ⟨[("", 1)], [licDiag ""]⟩) ∧
    LicRet.raw "" ≠ .nothing := by
  constructor
  · decide
  · decide

/-- C4 (amended): the three-way outcome of `_get_license` — a table hit
returns the controlled identifier with no state change, a
(lowercased/trimmed) `"notspecified"` returns nothing, and any OTHER string
(including the empty string, which the claim wrongly grouped with
`"notspecified"`) is passed through raw while its counter entry is
incremented. -/
theorem license_three_way (s : String) (st : LicState) :
    (∀ u, List.lookup (normKey s) LICENSES = some u →
       get_license_str s st = (.ident u, st)) ∧
    (normKey s = "notspecified" → get_license_str s st = (.nothing, st)) ∧
    (List.lookup (normKey s) LICENSES = none → normKey s ≠ "notspecified" →
       (get_license_str s st).1 = .raw (normKey s) ∧
       cget (get_license_str s st).2.counter (normKey s)
         = cget st.counter (normKey s) + 1) := by
  refine ⟨?_, ?_, ?_⟩
  · intro u hu
    have hne : normKey s ≠ "notspecified" := by
      intro hcon
      rw [hcon] at hu
      rw [show List.lookup "notspecified" LICENSES = none from by decide] at hu
      cases hu
    rw [get_license_str_eq, if_neg hne, hu]
  · intro h
    rw [get_license_str_eq, if_pos h]
  · intro hn hne
    rw [get_license_str_eq, if_neg hne, hn]
    refine ⟨rfl, ?_⟩
    show cget (licUnknown st (normKey s)).counter (normKey s) = _
    rw [licUnknown_counter, cget_cincr_self]

/-- C4 witness: `"MIT"` normalizes to the SPDX MIT identifier via the table;
`"Proprietary"` is passed through raw with its counter bumped to 1. -/
theorem license_three_way_witness :
    get_license_str "MIT" licInit = (.ident (.spdxLicense "MIT"), licInit) ∧
    (get_license_str "Proprietary" licInit).1 = .raw "proprietary" ∧
    cget (get_license_str "Proprietary" licInit).2.counter "proprietary" = 1 := by
  refine ⟨(license_three_way "MIT" licInit).1 _ (by decide), ?_, ?_⟩
  · exact ((license_three_way "Proprietary" licInit).2.2 (by decide) (by decide)).1
  · have h := ((license_three_way "Proprietary" licInit).2.2 (by decide) (by decide)).2
    rw [show normKey "Proprietary" = "proprietary" from by decide] at h
    simpa [licInit, cget] using h

/-- C4 counterexample: for the empty string — whose lowercased, trimmed form
is empty — the normalizer does NOT return nothing: it returns the raw
passthrough and records the value, so "unknown" was not collapsed into
"absent" but "empty" was also not treated as absent. -/
theorem license_empty_counterexample :
    (get_license_str "" licInit).1 ≠ .nothing ∧
    cget (get_license_str "" licInit).2.counter "" = 1 := by
  constructor
  · decide
  · decide

/-- C5 (amended): license normalization is case-insensitive — any two raw
strings with the same lowercased, trimmed form produce the same return value
— and it is idempotent for every table entry EXCEPT `"gpl-3.0"`: that key
maps to the `GPL-3.0-or-later` identifier, whose label is not itself a table
key, so re-normalizing it falls through to the raw passthrough. -/
theorem license_case_insensitive_idempotent :
    (∀ s t st st', normKey s = normKey t →
       (get_license_str s st).1 = (get_license_str t st').1) ∧
    (∀ p ∈ LICENSES, p.1 ≠ pyLower "gpl-3.0" →
       ∀ st : LicState, (get_license_str (uriLabel p.2) st).1 = .ident p.2) := by
  constructor
  · intro s t st st' h
    rw [get_license_str_eq, get_license_str_eq, h]
    split
    · rfl
    · rcases hE : List.lookup (normKey t) LICENSES with _ | u
      · simp only [hE]
      · simp only [hE]
  · intro p hp hne st
    simp only [LICENSES] at hp
    fin_cases hp <;> first | rfl | exact absurd rfl hne

/-- C5 counterexample: `"mit"` and `"MIT"` do agree, but idempotence fails on
the `"gpl-3.0"` entry: it normalizes to the `GPL-3.0-or-later` identifier,
and normalizing that identifier's label again yields the raw passthrough
`"gpl-3.0-or-later"`, not the identifier. -/
theorem license_idempotence_counterexample :
    (get_license_str "gpl-3.0" licInit).1
      = .ident (.spdxLicense "GPL-3.0-or-later") ∧
    (get_license_str "GPL-3.0-or-later" licInit).1 = .raw "gpl-3.0-or-later" ∧
    LicRet.raw "gpl-3.0-or-later" ≠ .ident (.spdxLicense "GPL-3.0-or-later") := by
  refine ⟨by decide, by decide, by decide⟩

/-- C6: starting from fresh module state, an unknown resource-type label `v`
(absent from the table) and an unknown license string `w` (outside the table
and not `"notspecified"`) each have their diagnostic line in the log exactly
once as soon as they occur at all — never more, however often they recur —
while their counter entries equal their full occurrence counts. -/
theorem unknown_reported_once (v w : String)
    (hv : List.lookup v RESOURCE_TYPE_MAP = none)
    (hw : List.lookup w LICENSES = none) (hw2 : w ≠ "notspecified")
    (rts lics : List String) :
    cget (get_resource_types rts rtInit).counter v = occ v rts ∧
    (get_resource_types rts rtInit).log.count (rtDiag v)
      = (if occ v rts = 0 then 0 else 1) ∧
    cget (process_licenses lics licInit).counter w = occ w lics ∧
    (process_licenses lics licInit).log.count (licDiag w)
      = (if occ w lics = 0 then 0 else 1) := by
  obtain ⟨h1, h2⟩ := rt_fold v hv rts rtInit
  obtain ⟨h3, h4⟩ := lic_fold w hw hw2 lics licInit
  refine ⟨?_, ?_, ?_, ?_⟩
  · simpa [rtInit, cget] using h1
  · rw [h2]
    by_cases h : occ v rts = 0 <;> simp [rtInit, cget, h]
  · simpa [licInit, cget] using h3
  · rw [h4]
    by_cases h : occ w lics = 0 <;> simp [licInit, cmem, h]

/-- C6 witness: the unknown label occurs twice (once with different casing
and padding), is counted twice, and its diagnostic appears exactly once;
likewise for an unknown license string. -/
theorem unknown_reported_once_witness :
    cget (get_resource_types ["video", "zzz unknown type", "Zzz Unknown Type "]
        rtInit).counter "zzz unknown type" = 2 ∧
    (get_resource_types ["video", "zzz unknown type", "Zzz Unknown Type "]
        rtInit).log.count (rtDiag "zzz unknown type") = 1 ∧
    cget (process_licenses ["MIT", "zzz license", "zzz license"]
        licInit).counter "zzz license" = 2 ∧
    (process_licenses ["MIT", "zzz license", "zzz license"]
        licInit).log.count (licDiag "zzz license") = 1 := by
  obtain ⟨h1, h2, h3, h4⟩ := unknown_reported_once "zzz unknown type"
    "zzz license" (by decide) (by decide) (by decide)
    ["video", "zzz unknown type", "Zzz Unknown Type "]
    ["MIT", "zzz license", "zzz license"]
  have o1 : occ "zzz unknown type"
      ["video", "zzz unknown type", "Zzz Unknown Type "] = 2 := by decide
  have o2 : occ "zzz license" ["MIT", "zzz license", "zzz license"] = 2 := by
    decide
  rw [o1] at h1 h2
  rw [o2] at h3 h4
  exact ⟨h1, by simpa using h2, h3, by simpa using h4⟩

/-- C7 (amended): for every marker in {S, R, SR, RS} and every name that
contains no newline (the regex metacharacter `.` does not match a newline),
the pattern matches `name ++ " (" ++ marker ++ ")"`, capturing the name
without the parenthetical and the marker separately; a string the pattern
rejects keeps its name unchanged with no marker. -/
theorem relation_marker_spec :
    (∀ name rel, (rel = "S" ∨ rel = "R" ∨ rel = "SR" ∨ rel = "RS") →
       (∀ c ∈ name.data, c ≠ '\n') →
       re_match (name ++ " (" ++ rel ++ ")") = some (name, rel) ∧
       strip_relation (name ++ " (" ++ rel ++ ")") = (name, some rel)) ∧
    (∀ s, re_match s = none → strip_relation s = (s, none)) := by
  constructor
  · intro name rel hrel hnl
    have h := re_match_accepts name rel hrel hnl
    refine ⟨h, ?_⟩
    rw [strip_relation, h]
  · intro s hs
    rw [strip_relation, hs]

/-- C7 counterexample: `"a\nb (S)"` has the claimed `"Name (S)"` shape, but
`.*` does not cross the newline, so the pattern rejects it — the claim's
universal acceptance fails. -/
theorem relation_marker_newline_counterexample :
    re_match "a\nb (S)" = none ∧ strip_relation "a\nb (S)" = ("a\nb (S)", none) := by
  constructor
  · decide
  · decide

/-- C8: a DIF13 record whose description is missing (`None`) or empty is
skipped by `_from_dalia_dif13` (`return None`, not an error), and a batch of
N rows in which exactly one record is skipped this way — every other row
converting successfully — yields exactly N-1 output records. -/
theorem missing_description_skipped
    (l1 l2 : List DIF13) (bad : DIF13)
    (hbad : pyTruthyOptStr bad.description = false)
    (hok : ∀ r ∈ l1 ++ l2, ∃ lm, from_dalia_dif13 r = .ok (some lm)) :
    from_dalia_dif13 bad = .ok none ∧
    ∃ out, process_rows (l1 ++ bad :: l2) = .ok out ∧
      out.length = (l1 ++ bad :: l2).length - 1 :=
  ⟨from_dalia_skips_falsy bad hbad, process_rows_skip_one l1 l2 bad hbad hok⟩

/-- C8 witness: a two-row batch whose second row lacks a description yields
one output record. -/
theorem missing_description_skipped_witness :
    from_dalia_dif13 ⟨"u2", "T2", none, ["https-b"], []⟩ = .ok none ∧
    ∃ out, process_rows [⟨"u1", "T1", some "d", ["https-a"], []⟩,
        ⟨"u2", "T2", none, ["https-b"], []⟩] = .ok out ∧ out.length = 1 := by
  obtain ⟨h1, h2⟩ := missing_description_skipped
    [⟨"u1", "T1", some "d", ["https-a"], []⟩] []
    ⟨"u2", "T2", none, ["https-b"], []⟩ (by decide)
    (by
      intro r hr
      simp only [List.append_nil, List.mem_singleton] at hr
      subst hr
      exact ⟨_, rfl⟩)
  exact ⟨h1, by simpa using h2⟩

/-- C9: for a resource with a non-empty English title and a non-empty
description dict, `export_tess` produces a material whose description field
is the English TITLE text (the source reads `oer.title.get(EN)` on line 26,
not `oer.description.get(EN)`); with an empty description dict the exported
description is `None`. -/
theorem export_description_is_title (oer : EducationalResource) (t : String)
    (ht : List.lookup EN oer.title = some t) (ht2 : t ≠ "") :
    (oer.description ≠ [] →
       ∃ lm, export_tess oer = some lm ∧ lm.description = some t) ∧
    (oer.description = [] →
       ∃ lm, export_tess oer = some lm ∧ lm.description = none) := by
  have htne : oer.title.isEmpty = false := by
    cases h : oer.title with
    | nil => rw [h] at ht; simp [List.lookup] at ht
    | cons a l => rfl
  constructor
  · intro hd
    have hdne : oer.description.isEmpty = false := by
      cases h : oer.description with
      | nil => exact absurd h hd
      | cons a l => rfl
    exact ⟨_, export_tess_ok oer t htne ht ht2, by simp [hdne]⟩
  · intro hd
    have hde : oer.description.isEmpty = true := by rw [hd]; rfl
    exact ⟨_, export_tess_ok oer t htne ht ht2, by simp [hde]⟩

/-- C9 witness: a resource titled "T" with description text "D" exports with
description "T"; the same resource with no description exports with no
description. -/
theorem export_description_is_title_witness :
    (∃ lm, export_tess ⟨[("en", "T")], [("en", "D")], [], none⟩ = some lm ∧
       lm.description = some "T") ∧
    (∃ lm, export_tess ⟨[("en", "T")], [], [], none⟩ = some lm ∧
       lm.description = none) := by
  constructor
  · exact (export_description_is_title ⟨[("en", "T")], [("en", "D")], [], none⟩
      "T" (by decide) (by decide)).1 (by simp)
  · exact (export_description_is_title ⟨[("en", "T")], [], [], none⟩
      "T" (by decide) (by decide)).2 rfl

/-- C10: when `attributes["licence"]` is `None`, `_get_license` raises
`AttributeError` from `None.lower()` before the guard on line 269 runs; and
the "return nothing" outcome is reachable ONLY through the
`== "notspecified"` comparison, so the `license_text is None` disjunct of
that guard is dead code and a `None` licence is never silently dropped. -/
theorem none_licence_raises :
    (∀ st, get_license none st = .error .attributeError) ∧
    (∀ s st, (get_license_str s st).1 = .nothing → normKey s = "notspecified") := by
  constructor
  · intro st
    rfl
  · intro s st h
    by_cases hns : normKey s = "notspecified"
    · exact hns
    · exfalso
      rw [get_license_str_eq, if_neg hns] at h
      rcases hE : List.lookup (normKey s) LICENSES with _ | u <;>
        simp [hE] at h
